import Mathlib

/-!
Verification of the MCP tester core: the leak-detection probe
(`timeout_tester`, `find_stdio_child`, `snapshot` in advanced.py) and the
session manager (`MCPTesterClient` in generic_client.py).

Numeric model: Python floats (CPU percentages, monotonic-clock readings)
are embedded as rationals `ℚ`; `rss`, thread and child counts are `Nat`.
-/

namespace MCPTester

/-- A resource snapshot as produced by `snapshot` in advanced.py (lines 71-93):
on success a dict with keys `rss`, `cpu`, `thr`, `fds`, `handles`, `kids`;
when psutil raises, the dict `{"dead": True}`, which carries none of those
keys. -/
inductive Snap where
  | live (rss : Nat) (cpu : ℚ) (thr : Nat) (fds : Option Nat)
      (handles : Option Nat) (kids : Nat)
  | dead
deriving DecidableEq, Repr

/-- Python `d.get("rss", 0)`: the stored value on a live snapshot, the default
0 on the dead marker (which has no such key). -/
def Snap.rss : Snap → Nat
  | .live r _ _ _ _ _ => r
  | .dead => 0

/-- Python `d.get("cpu", 0)`. -/
def Snap.cpu : Snap → ℚ
  | .live _ c _ _ _ _ => c
  | .dead => 0

/-- Python `d.get("thr", 0)`. -/
def Snap.thr : Snap → Nat
  | .live _ _ t _ _ _ => t
  | .dead => 0

/-- Python `d.get("kids", 0)`. -/
def Snap.kids : Snap → Nat
  | .live _ _ _ _ _ k => k
  | .dead => 0

/-- advanced.py line 42: `ok_cpu = last.get("cpu", 0) < 2.0`. -/
def ok_cpu (lastS : Snap) : Bool := lastS.cpu < 2

/-- advanced.py line 43: `ok_thr = last.get("thr", 0) <= base.get("thr", 0) + 1`. -/
def ok_thr (base lastS : Snap) : Bool := lastS.thr ≤ base.thr + 1

/-- advanced.py line 44: `ok_kids = last.get("kids", 0) <= base.get("kids", 0)`. -/
def ok_kids (base lastS : Snap) : Bool := lastS.kids ≤ base.kids

/-- advanced.py line 45:
`ok_rss = last.get("rss", 0) <= base.get("rss", 0) * 1.10 + 5_000_000`.
The float literal 1.10 is embedded as the rational 11/10. -/
def ok_rss (base lastS : Snap) : Bool :=
  (lastS.rss : ℚ) ≤ (base.rss : ℚ) * (11 / 10) + 5000000

/-- advanced.py line 46: the decay predicate, the conjunction of all four
conditions. -/
def decayed (base lastS : Snap) : Bool :=
  ok_cpu lastS && ok_thr base lastS && ok_kids base lastS && ok_rss base lastS

/-- Probe verdicts: the `"status"` field of the dict returned by
`timeout_tester` (advanced.py lines 47 and 50). -/
inductive Status where
  | clean
  | suspect_leak
deriving DecidableEq, Repr

/-- The dict returned by `timeout_tester`:
`{"status": ..., "baseline": base, "final": last}`. `final` is an `Option`
because the Python local `last` is initialised to `None` (line 38) and is
still `None` if the drain loop body never runs. -/
structure ProbeResult where
  status : Status
  baseline : Snap
  final : Option Snap
deriving DecidableEq, Repr

/-- Outcome of one run of the drain loop (advanced.py lines 37-50):
the returned dict, the list of snapshots the loop actually took (in order),
and, when the loop exited through its guard `time.monotonic() < deadline`
failing, the clock reading at that final guard check. -/
structure DrainOut where
  result : ProbeResult
  taken : List Snap
  exitTime : Option ℚ
deriving DecidableEq, Repr

/-- The drain loop of `timeout_tester` (advanced.py lines 39-50). The
environment it samples is modelled as the list `obs` of pairs
`(clock reading at the loop guard, snapshot taken in that iteration)`,
in the order the iterations would occur. `lastS` is the Python local
`last`. An exhausted `obs` (only possible in the model; real time grows
past any deadline) also yields the line-50 return. -/
def drainLoop (base : Snap) (deadline : ℚ) (lastS : Option Snap) :
    List (ℚ × Snap) → DrainOut
  | [] => ⟨⟨.suspect_leak, base, lastS⟩, [], none⟩
  | (t, s) :: rest =>
    if t < deadline then
      if decayed base s then
        ⟨⟨.clean, base, some s⟩, [s], none⟩
      else
        let o := drainLoop base deadline (some s) rest
        ⟨o.result, s :: o.taken, o.exitTime⟩
    else
      ⟨⟨.suspect_leak, base, lastS⟩, [], some t⟩

/-- One entry of the process table as `find_stdio_child` inspects it:
`is_running` is `c.is_running()`; `cmdline` is `p.cmdline()`, `none`
modelling a `psutil.Error` raised while reading it (the `except` on
advanced.py line 67 then skips the candidate). -/
structure ProcInfo where
  is_running : Bool
  cmdline : Option (List String)
deriving DecidableEq, Repr

/-- Python `needle in hay` for strings, on character lists: `needle` occurs
as a contiguous run of `hay` starting at some offset. -/
def charsAt (needle hay : List Char) : Bool :=
  match needle, hay with
  | [], _ => true
  | _ :: _, [] => false
  | a :: as, b :: bs => a == b && charsAt as bs

/-- Python `needle in hay` for strings. -/
def strIn (needle hay : String) : Bool :=
  (List.range (hay.data.length + 1)).any fun i => charsAt needle.data (hay.data.drop i)

/-- Python `str.lower()`: charwise lowering. -/
def pyLower (s : String) : String := ⟨s.data.map Char.toLower⟩

/-- advanced.py lines 63-66: join the candidate's cmdline with spaces, lower
it, and test whether the stem occurs in it; a candidate whose cmdline read
raised gives `false` (the exception handler skips it). -/
def matchesStem (cmd_stem : String) (p : ProcInfo) : Bool :=
  match p.cmdline with
  | some cl => strIn cmd_stem (pyLower (String.intercalate " " cl))
  | none => false

/-- Errors raised by the probe, named after the spec's taxonomy (§7).
`unsupported_transport` is the `RuntimeError` of advanced.py line 11;
`process_not_found` is the `RuntimeError` of line 69; `call_error` is an
exception other than `CancelledError` propagating out of `await task` on
line 29 (only `CancelledError` is caught). -/
inductive ProbeError where
  | unsupported_transport
  | process_not_found
  | call_error (e : String)
deriving DecidableEq, Repr

/-- `find_stdio_child` (advanced.py lines 53-69). The process table over
time is the oracle `table`; `t0` is the clock when the function is entered.
The function sleeps 0.1 s once (line 59), reads the running children once,
and scans them once for the first cmdline containing `cmd_stem`; it raises
(line 69) when no candidate matches. The second component records the
instants at which the process table was read. -/
def find_stdio_child (table : ℚ → List ProcInfo) (t0 : ℚ) (cmd_stem : String) :
    Except ProbeError ProcInfo × List ℚ :=
  let tScan := t0 + 1 / 10
  let candidates := (table tScan).filter (fun p => p.is_running)
  match candidates.find? (matchesStem cmd_stem) with
  | some p => (.ok p, [tScan])
  | none => (.error .process_not_found, [tScan])

/-- How `await task` on advanced.py line 29 resolves after `task.cancel()`:
the task raises `asyncio.CancelledError` (caught on line 30), completes
normally, or raises some other exception (uncaught). -/
inductive AwaitOutcome where
  | cancelled
  | ok
  | error (e : String)
deriving DecidableEq, Repr

/-- Observable steps of a probe run, in program order. Baseline and drain
snapshots both come from `snapshot(proc)` but are distinguished by their
call site (advanced.py lines 21 and 40). -/
inductive Event where
  | locate_child
  | take_baseline (s : Snap)
  | issue_call
  | cancel_call
  | await_task (o : AwaitOutcome)
  | force_close
  | drain_snapshot (s : Snap)
deriving DecidableEq, Repr

/-- Everything a `timeout_tester` run reads from its environment.
`transport_name` is the attribute read on advanced.py line 10 (the client's
transport tag); `table`/`t_locate`/`cmd_stem` feed `find_stdio_child`
(line 20, the stem being the basename of the registered command, lowered);
`baseline` is the value of `snapshot(proc)` on line 21; `awaitOutcome` is
how the cancelled call resolves on line 29; `startTime` is
`time.monotonic()` on line 37; `obs` are the drain loop's timed snapshots. -/
structure ProbeEnv where
  transport_name : String
  table : ℚ → List ProcInfo
  t_locate : ℚ
  cmd_stem : String
  baseline : Snap
  awaitOutcome : AwaitOutcome
  startTime : ℚ
  obs : List (ℚ × Snap)

/-- The event trace common to every run that reaches the cancel phase. -/
def preTrace (env : ProbeEnv) : List Event :=
  [.locate_child, .take_baseline env.baseline, .issue_call, .cancel_call,
    .await_task env.awaitOutcome]

/-- `timeout_tester` (advanced.py lines 7-50) as a function of its
environment and the `grace` argument (default 5, line 8), returning the
probe's outcome together with its event trace. Control flow in source
order: the transport guard (line 10) raises before anything else; then the
child is located (line 20) and the baseline taken (line 21); the call is
issued (line 24) and cancelled (line 27); only `CancelledError` is caught
on line 30, so any other exception from `await task` propagates, skipping
the force-close (line 34) and the drain; otherwise the session is
force-closed and the drain loop (lines 37-50) runs to a verdict. -/
def timeout_tester (env : ProbeEnv) (grace : ℚ) :
    Except ProbeError ProbeResult × List Event :=
  if env.transport_name ≠ "stdio" then
    (.error .unsupported_transport, [])
  else
    match (find_stdio_child env.table env.t_locate env.cmd_stem).1 with
    | .error e => (.error e, [.locate_child])
    | .ok _ =>
      match env.awaitOutcome with
      | .error e => (.error (.call_error e), preTrace env)
      | _ =>
        let o := drainLoop env.baseline (env.startTime + grace) none env.obs
        (.ok o.result, preTrace env ++ .force_close :: o.taken.map .drain_snapshot)

/-- The `grace` default: `kwargs.get("grace", 5)` on advanced.py line 8. -/
def grace_default : ℚ := 5

/-! ## The session manager (generic_client.py) -/

/-- A registered server configuration: the dict passed to `add_server`
(generic_client.py lines 68-76), carrying the transport tag and the
transport-specific payload (`StdioServerParameters` fields or a URL),
kept abstract as a string. -/
structure ServerConfig where
  transport : String
  payload : String
deriving DecidableEq, Repr

/-- Python dict assignment `m[k] = v`: replaces the value when the key is
present, appends the binding otherwise. -/
def dictSet {α : Type} : List (String × α) → String → α → List (String × α)
  | [], k, v => [(k, v)]
  | (k0, v0) :: rest, k, v =>
    if k0 = k then (k, v) :: rest else (k0, v0) :: dictSet rest k v

/-- Python dict lookup `m[k]` / `m.get(k)`. -/
def dictGet {α : Type} (m : List (String × α)) (k : String) : Option α :=
  (m.find? (fun p => p.1 = k)).map Prod.snd

/-- Python `m.pop(k, None)`: the map with the binding for `k` removed. -/
def dictPop {α : Type} (m : List (String × α)) (k : String) : List (String × α) :=
  m.filter (fun p => p.1 ≠ k)

/-- Errors of the session manager, named after the spec's taxonomy (§7). -/
inductive ClientError where
  | duplicate_server
deriving DecidableEq, Repr

/-- `add_server` (generic_client.py lines 68-76). The body is a single dict
assignment `self.server_params[server_id] = server_params` preceded by a
log line: there is no duplicate check and no raise path, so the embedding
always returns `.ok`. -/
def add_server (m : List (String × ServerConfig)) (server_id : String)
    (cfg : ServerConfig) : Except ClientError (List (String × ServerConfig)) :=
  .ok (dictSet m server_id cfg)

/-- An `AsyncExitStack`: the contexts entered on it (innermost last) and
whether its `aclose` coroutine has actually been awaited. -/
structure ExitStack where
  resources : List String
  closed : Bool
deriving DecidableEq, Repr

/-- A `ClientSession` handle; its protocol internals are out of scope. -/
inductive Session where
  | mk
deriving DecidableEq, Repr

/-- The mutable state of an `MCPTesterClient` (generic_client.py lines
53-66): the three dicts keyed by server id. -/
structure ClientState where
  server_params : List (String × ServerConfig)
  sessions : List (String × Session)
  exit_stacks : List (String × ExitStack)
deriving DecidableEq, Repr

/-- `connect_server_stdio` (generic_client.py lines 78-99) with the
environment condensed to `timesOut`: whether `initialize()` exceeds the
5-second `asyncio.wait_for` bound (line 92). In source order: a fresh
`AsyncExitStack` is created and stored (lines 81-82); `stdio_client` and
`ClientSession` are entered on it (lines 84-86); the session is stored
(line 87). On timeout, line 94 evaluates `exit_stack.aclose()` WITHOUT
`await`: the coroutine object is created and discarded, so no context on
the stack is exited and `closed` stays `false`; the session entry is then
popped (line 95) and `None` returned — the `exit_stacks` entry is never
removed. On success the session is returned. -/
def connect_server_stdio (st : ClientState) (server_id : String)
    (timesOut : Bool) : ClientState × Option Session :=
  let stack : ExitStack := ⟨["stdio_client", "ClientSession"], false⟩
  let st1 : ClientState :=
    { st with exit_stacks := dictSet st.exit_stacks server_id stack,
              sessions := dictSet st.sessions server_id .mk }
  if timesOut then
    ({ st1 with sessions := dictPop st1.sessions server_id }, none)
  else
    (st1, some .mk)

/-- Per-stack record of what `cleanup`'s loop did: `closed id` when
`await exit_stack.aclose()` returned, `close_failed id` when it raised
(the exception is logged and the loop continues, lines 133-135). -/
inductive CleanupEv where
  | closed (server_id : String)
  | close_failed (server_id : String)
deriving DecidableEq, Repr

/-- The server id a cleanup event is about. -/
def CleanupEv.sid : CleanupEv → String
  | .closed i => i
  | .close_failed i => i

/-- The `for server_id, exit_stack in self.exit_stacks.items()` loop of
`cleanup` (generic_client.py lines 129-135): each stack's `aclose` is
awaited inside `try`; on exception the loop logs and `continue`s. Whether
a given stack's close raises is the environment parameter `fails`. -/
def cleanupLoop (fails : String → Bool) : List (String × ExitStack) → List CleanupEv
  | [] => []
  | (server_id, _) :: rest =>
    (if fails server_id then CleanupEv.close_failed server_id
      else CleanupEv.closed server_id) :: cleanupLoop fails rest

/-- `cleanup` (generic_client.py lines 124-140): run the close loop over
every entry of `exit_stacks`, then `self.sessions.clear()` and
`self.exit_stacks.clear()` unconditionally. Returns the new state and the
per-stack close attempts in iteration order. -/
def cleanup (st : ClientState) (fails : String → Bool) :
    ClientState × List CleanupEv :=
  let evs := cleanupLoop fails st.exit_stacks
  ({ st with sessions := [], exit_stacks := [] }, evs)

/-! ## Predicates and concrete evaluation data -/

/-- The combined loop-body test for one drain iteration: the guard
`time.monotonic() < deadline` together with the decay predicate of the
snapshot taken in that iteration. -/
def inWindowDecayed (base : Snap) (deadline : ℚ) (p : ℚ × Snap) : Bool :=
  decide (p.1 < deadline) && decayed base p.2

/-- Guard times are non-decreasing along the observation list, as readings
of a monotonic clock are. -/
abbrev TimesMono (obs : List (ℚ × Snap)) : Prop :=
  obs.Pairwise (fun p r => p.1 ≤ r.1)

/-- A running child whose command line contains the stem `"srv"`. -/
def procA : ProcInfo := ⟨true, some ["python", "srv.py"]⟩

/-- Baseline of the spec's §8 Scenario A: rss 50 MB, 4 threads, no
children. -/
def snapBase : Snap := .live 50000000 1 4 (some 10) none 0

/-- Scenario A's decayed drain sample: rss 48 MB, 5 threads, cpu 1.0. -/
def snapGood : Snap := .live 48000000 1 5 (some 10) none 0

/-- A clearly non-decayed sample: rss 200 MB, high cpu, many threads. -/
def snapBad : Snap := .live 200000000 50 40 (some 99) none 3

/-- A concrete stdio probe environment whose second drain sample decays. -/
def envClean : ProbeEnv :=
  { transport_name := "stdio", table := fun _ => [procA], t_locate := 0,
    cmd_stem := "srv", baseline := snapBase, awaitOutcome := .cancelled,
    startTime := 1, obs := [(2, snapBad), (3, snapGood), (7, snapGood)] }

/-- The same environment with no drain sample ever decaying. -/
def envLeak : ProbeEnv := { envClean with obs := [(2, snapBad), (7, snapBad)] }

/-- The same environment over a streaming-HTTP transport. -/
def envHttp : ProbeEnv := { envClean with transport_name := "streamable_https" }

/-- The same environment where `await task` raises something other than
`CancelledError`. -/
def envAbort : ProbeEnv := { envClean with awaitOutcome := .error "boom" }

/-- A process table in which the spawned child only becomes visible 0.2 s
after spawn. -/
def tableLate : ℚ → List ProcInfo := fun t => if t < 2 / 10 then [] else [procA]

/-- A second running child whose command line also contains `"srv"`. -/
def procB : ProcInfo := ⟨true, some ["python", "srv2.py"]⟩

/-- A process table holding two candidates that both match the stem. -/
def tableTwo : ℚ → List ProcInfo := fun _ => [procA, procB]

/-- A sample stdio configuration. -/
def cfgA : ServerConfig := ⟨"stdio", "python srv.py"⟩

/-- A different configuration under the same transport. -/
def cfgB : ServerConfig := ⟨"stdio", "python other.py"⟩

/-- A client state with two connected sessions and their exit stacks. -/
def stFail : ClientState :=
  ⟨[("1", cfgA), ("2", cfgB)], [("1", .mk), ("2", .mk)],
    [("1", ⟨["stdio_client", "ClientSession"], false⟩),
      ("2", ⟨["stdio_client", "ClientSession"], false⟩)]⟩

/-- A cleanup environment in which closing the stack of server "1"
raises. -/
def failsOn1 : String → Bool := fun sid => sid = "1"

/-- Whether an event is a drain snapshot. -/
def Event.isDrain : Event → Bool
  | .drain_snapshot _ => true
  | _ => false

theorem timesMono_cons {p : ℚ × Snap} {rest : List (ℚ × Snap)}
    (h : TimesMono (p :: rest)) : TimesMono rest :=
  (List.pairwise_cons.mp h).2

theorem getLast?_cons_or {α : Type} (a : α) (l : List α) :
    (a :: l).getLast? = l.getLast?.or (some a) := by
  induction l generalizing a with
  | nil => rfl
  | cons b bs ih =>
    rw [List.getLast?_cons_cons, ih b]
    cases h : bs.getLast? <;> simp [Option.or]

/-- If some observation passes the combined test, the drain loop stops at
the first one that does, yields a `clean` verdict with that snapshot as
`final`, and the snapshots it takes are exactly those up to and including
that first success. -/
theorem drainLoop_find_clean (base : Snap) (deadline : ℚ) :
    ∀ (obs : List (ℚ × Snap)) (lastS : Option Snap) (q : ℚ × Snap),
      TimesMono obs →
      obs.find? (inWindowDecayed base deadline) = some q →
      drainLoop base deadline lastS obs =
        ⟨⟨.clean, base, some q.2⟩,
          (obs.takeWhile (fun p => !inWindowDecayed base deadline p)).map Prod.snd
            ++ [q.2],
          none⟩ := by
  intro obs
  induction obs with
  | nil => intro lastS q _ hfind; simp at hfind
  | cons hd tl ih =>
    intro lastS q hmono hfind
    obtain ⟨t, s⟩ := hd
    by_cases hP : inWindowDecayed base deadline (t, s) = true
    · rw [List.find?_cons_of_pos _ hP] at hfind
      injection hfind with hq
      subst hq
      have ht : t < deadline := by
        have := hP
        simp [inWindowDecayed, Bool.and_eq_true] at this
        exact this.1
      have hd : decayed base s = true := by
        have := hP
        simp [inWindowDecayed, Bool.and_eq_true] at this
        exact this.2
      simp [drainLoop, if_pos ht, hd, List.takeWhile_cons_of_neg, hP]
    · rw [List.find?_cons_of_neg _ hP] at hfind
      rw [List.takeWhile_cons_of_pos (by simp [hP])]
      by_cases hT : t < deadline
      · have hdec : decayed base s = false := by
          rcases Bool.eq_false_or_eq_true (decayed base s) with h | h
          · exact absurd (by simp [inWindowDecayed, hT, h]) hP
          · exact h
        rw [show drainLoop base deadline lastS ((t, s) :: tl) =
            ⟨(drainLoop base deadline (some s) tl).result,
              s :: (drainLoop base deadline (some s) tl).taken,
              (drainLoop base deadline (some s) tl).exitTime⟩ by
          simp [drainLoop, if_pos hT, hdec]]
        rw [ih (some s) q (timesMono_cons hmono) hfind]
        simp
      · exfalso
        have hq : inWindowDecayed base deadline q = true := List.find?_some hfind
        have hqmem : q ∈ tl := List.mem_of_find?_eq_some hfind
        have hqd : q.1 < deadline := by
          simp [inWindowDecayed, Bool.and_eq_true] at hq
          exact hq.1
        have hle : t ≤ q.1 := (List.pairwise_cons.mp hmono).1 q hqmem
        have : t < deadline := lt_of_le_of_lt hle hqd
        exact hT this

/-- If no observation inside the grace window decays and the loop does
terminate (some observation lies at or past the deadline), the drain loop
yields `suspect_leak`; `final` is the last snapshot actually taken (the
initial `lastS` if none was), the snapshots taken are exactly the
in-window ones, and the loop exits at a clock reading at or past the
deadline. -/
theorem drainLoop_timeout (base : Snap) (deadline : ℚ) :
    ∀ (obs : List (ℚ × Snap)) (lastS : Option Snap),
      TimesMono obs →
      (∀ p ∈ obs, inWindowDecayed base deadline p = false) →
      (∃ p ∈ obs, deadline ≤ p.1) →
      ∃ te, deadline ≤ te ∧
        drainLoop base deadline lastS obs =
          ⟨⟨.suspect_leak, base,
            (((obs.takeWhile fun p => decide (p.1 < deadline)).map Prod.snd).getLast?).or lastS⟩,
            (obs.takeWhile fun p => decide (p.1 < deadline)).map Prod.snd,
            some te⟩ := by
  intro obs
  induction obs with
  | nil => intro lastS _ _ hex; simp at hex
  | cons hd tl ih =>
    intro lastS hmono hnone hex
    obtain ⟨t, s⟩ := hd
    by_cases hT : t < deadline
    · have hdec : decayed base s = false := by
        have := hnone (t, s) (List.mem_cons_self _ _)
        simp [inWindowDecayed, hT] at this
        exact this
      have hex2 : ∃ p ∈ tl, deadline ≤ p.1 := by
        rcases hex with ⟨p, hp, hpd⟩
        rcases List.mem_cons.mp hp with h | h
        · exfalso; rw [h] at hpd; exact absurd hT (not_lt.mpr hpd)
        · exact ⟨p, h, hpd⟩
      obtain ⟨te, hte, heq⟩ := ih (some s) (timesMono_cons hmono)
        (fun p hp => hnone p (List.mem_cons_of_mem _ hp)) hex2
      refine ⟨te, hte, ?_⟩
      rw [show drainLoop base deadline lastS ((t, s) :: tl) =
          ⟨(drainLoop base deadline (some s) tl).result,
            s :: (drainLoop base deadline (some s) tl).taken,
            (drainLoop base deadline (some s) tl).exitTime⟩ by
        simp [drainLoop, if_pos hT, hdec]]
      rw [heq]
      rw [List.takeWhile_cons_of_pos (by simp [hT])]
      simp only [List.map_cons]
      rw [getLast?_cons_or]
      cases h : ((tl.takeWhile fun p => decide (p.1 < deadline)).map Prod.snd).getLast? <;>
        simp [Option.or, h]
    · refine ⟨t, not_lt.mp hT, ?_⟩
      rw [List.takeWhile_cons_of_neg (by simp [hT])]
      simp [drainLoop, if_neg hT, Option.or]

/-- Unfolding of `timeout_tester` for runs that reach the drain: stdio
transport, located child, and a cancel phase that does not raise an
unexpected exception. -/
theorem timeout_tester_eq_drain (env : ProbeEnv) (grace : ℚ) (pr : ProcInfo)
    (hT : env.transport_name = "stdio")
    (hloc : (find_stdio_child env.table env.t_locate env.cmd_stem).1 = .ok pr)
    (haw : env.awaitOutcome = .cancelled ∨ env.awaitOutcome = .ok) :
    timeout_tester env grace =
      (.ok (drainLoop env.baseline (env.startTime + grace) none env.obs).result,
        preTrace env ++ .force_close ::
          (drainLoop env.baseline (env.startTime + grace) none env.obs).taken.map
            .drain_snapshot) := by
  unfold timeout_tester
  rw [if_neg (by simp [hT])]
  rw [hloc]
  rcases haw with h | h <;> rw [h]

/-- C1: in every probe run reaching the drain, if some snapshot taken
before the grace deadline satisfies all four decay conditions, the result
is status `clean`, `final` is the first such snapshot in time order, and
the run returns immediately there: the trace records no drain snapshot
past that first success. -/
theorem timeout_tester_clean_first (env : ProbeEnv) (grace : ℚ) (pr : ProcInfo)
    (hT : env.transport_name = "stdio")
    (hloc : (find_stdio_child env.table env.t_locate env.cmd_stem).1 = .ok pr)
    (haw : env.awaitOutcome = .cancelled ∨ env.awaitOutcome = .ok)
    (hmono : TimesMono env.obs)
    (hex : ∃ p ∈ env.obs, p.1 < env.startTime + grace ∧ decayed env.baseline p.2 = true) :
    ∃ q, env.obs.find? (inWindowDecayed env.baseline (env.startTime + grace)) = some q ∧
      q.1 < env.startTime + grace ∧ decayed env.baseline q.2 = true ∧
      timeout_tester env grace =
        (.ok ⟨.clean, env.baseline, some q.2⟩,
          preTrace env ++ .force_close ::
            ((env.obs.takeWhile
                (fun p => !inWindowDecayed env.baseline (env.startTime + grace) p)).map
              Prod.snd ++ [q.2]).map .drain_snapshot) := by
  have hsome : (env.obs.find? (inWindowDecayed env.baseline (env.startTime + grace))).isSome := by
    rw [List.find?_isSome]
    rcases hex with ⟨p, hp, h1, h2⟩
    exact ⟨p, hp, by simp [inWindowDecayed, h1, h2]⟩
  obtain ⟨q, hq⟩ := Option.isSome_iff_exists.mp hsome
  have hqP : inWindowDecayed env.baseline (env.startTime + grace) q = true :=
    List.find?_some hq
  simp only [inWindowDecayed, Bool.and_eq_true, decide_eq_true_eq] at hqP
  refine ⟨q, hq, hqP.1, hqP.2, ?_⟩
  rw [timeout_tester_eq_drain env grace pr hT hloc haw]
  rw [drainLoop_find_clean env.baseline (env.startTime + grace) env.obs none q hmono hq]

/-- C2: in every probe run reaching the drain, if no snapshot taken before
the grace deadline decays and the clock does pass the deadline, the result
is status `suspect_leak`, `final` is the last snapshot taken (the
in-window ones being exactly those taken), and the loop's final guard
reading `te` is at least `grace` past the drain's start — the elapsed wall
time is at least the grace period. -/
theorem timeout_tester_suspect_leak (env : ProbeEnv) (grace : ℚ) (pr : ProcInfo)
    (hT : env.transport_name = "stdio")
    (hloc : (find_stdio_child env.table env.t_locate env.cmd_stem).1 = .ok pr)
    (haw : env.awaitOutcome = .cancelled ∨ env.awaitOutcome = .ok)
    (hmono : TimesMono env.obs)
    (hnone : ∀ p ∈ env.obs, p.1 < env.startTime + grace → decayed env.baseline p.2 = false)
    (hterm : ∃ p ∈ env.obs, env.startTime + grace ≤ p.1) :
    ∃ te, grace ≤ te - env.startTime ∧
      (drainLoop env.baseline (env.startTime + grace) none env.obs).exitTime = some te ∧
      timeout_tester env grace =
        (.ok ⟨.suspect_leak, env.baseline,
            ((env.obs.takeWhile fun p => decide (p.1 < env.startTime + grace)).map
              Prod.snd).getLast?⟩,
          preTrace env ++ .force_close ::
            ((env.obs.takeWhile fun p => decide (p.1 < env.startTime + grace)).map
              Prod.snd).map .drain_snapshot) := by
  have hnone2 : ∀ p ∈ env.obs,
      inWindowDecayed env.baseline (env.startTime + grace) p = false := by
    intro p hp
    by_cases h : p.1 < env.startTime + grace
    · simp [inWindowDecayed, h, hnone p hp h]
    · simp [inWindowDecayed, h]
  obtain ⟨te, hte, heq⟩ :=
    drainLoop_timeout env.baseline (env.startTime + grace) env.obs none hmono hnone2 hterm
  refine ⟨te, by linarith, ?_, ?_⟩
  · rw [heq]
  · rw [timeout_tester_eq_drain env grace pr hT hloc haw, heq]
    cases h : ((env.obs.takeWhile fun p =>
        decide (p.1 < env.startTime + grace)).map Prod.snd).getLast? <;>
      simp [Option.or, h]

/-- C10: with a non-positive `grace` the drain loop body never executes:
the probe still returns normally, with status `suspect_leak` and
`final = none` (the Python local `last` is still `None`), and its trace
records the baseline snapshot but no drain snapshot. -/
theorem timeout_tester_nonpositive_grace (env : ProbeEnv) (grace : ℚ) (pr : ProcInfo)
    (hT : env.transport_name = "stdio")
    (hloc : (find_stdio_child env.table env.t_locate env.cmd_stem).1 = .ok pr)
    (haw : env.awaitOutcome = .cancelled ∨ env.awaitOutcome = .ok)
    (hg : grace ≤ 0)
    (hobs : ∀ p ∈ env.obs, env.startTime ≤ p.1) :
    timeout_tester env grace =
      (.ok ⟨.suspect_leak, env.baseline, none⟩, preTrace env ++ [.force_close]) ∧
    Event.take_baseline env.baseline ∈ (timeout_tester env grace).2 ∧
    ∀ s, Event.drain_snapshot s ∉ (timeout_tester env grace).2 := by
  have hres : (drainLoop env.baseline (env.startTime + grace) none env.obs).result =
        ⟨.suspect_leak, env.baseline, none⟩ ∧
      (drainLoop env.baseline (env.startTime + grace) none env.obs).taken = [] := by
    cases hobs2 : env.obs with
    | nil => simp [drainLoop]
    | cons p rest =>
      obtain ⟨t, s⟩ := p
      have h1 : ¬ t < env.startTime + grace := by
        have h2 := hobs (t, s) (by rw [hobs2]; exact List.mem_cons_self _ _)
        simp only at h2
        intro hlt
        linarith
      simp [drainLoop, if_neg h1]
  have hmain : timeout_tester env grace =
      (.ok ⟨.suspect_leak, env.baseline, none⟩, preTrace env ++ [.force_close]) := by
    rw [timeout_tester_eq_drain env grace pr hT hloc haw, hres.1, hres.2]
    simp
  refine ⟨hmain, ?_, ?_⟩
  · rw [hmain]; simp [preTrace]
  · intro s; rw [hmain]; simp [preTrace]

/-- Every probe trace has one of four shapes, one per exit path of
`timeout_tester`. -/
theorem trace_cases (env : ProbeEnv) (grace : ℚ) :
    (timeout_tester env grace).2 = [] ∨
    (timeout_tester env grace).2 = [Event.locate_child] ∨
    (timeout_tester env grace).2 = preTrace env ∨
    ∃ l : List Snap, (timeout_tester env grace).2 =
      preTrace env ++ Event.force_close :: l.map Event.drain_snapshot := by
  unfold timeout_tester
  by_cases hT : env.transport_name ≠ "stdio"
  · rw [if_pos hT]
    exact Or.inl rfl
  · rw [if_neg hT]
    cases hfc : (find_stdio_child env.table env.t_locate env.cmd_stem).1 with
    | error e => exact Or.inr (Or.inl rfl)
    | ok pr =>
      cases ho : env.awaitOutcome with
      | cancelled => exact Or.inr (Or.inr (Or.inr ⟨_, rfl⟩))
      | ok => exact Or.inr (Or.inr (Or.inr ⟨_, rfl⟩))
      | error e => exact Or.inr (Or.inr (Or.inl rfl))

/-- Any event read off a map of `drain_snapshot`s is a `drain_snapshot`. -/
theorem getElem?_map_drain (l : List Snap) (n : Nat) (x : Event)
    (h : (l.map Event.drain_snapshot)[n]? = some x) :
    ∃ s, x = Event.drain_snapshot s := by
  rcases List.mem_map.mp (List.getElem?_mem h) with ⟨s, _, rfl⟩
  exact ⟨s, rfl⟩

/-- Index characterisation of the pre-drain trace: baseline at 1, call
issuance at 2, cancellation at 3; no force-close occurs. -/
theorem preTrace_index (env : ProbeEnv) (i : Nat) (x : Event)
    (h : (preTrace env)[i]? = some x) :
    ((∃ s, x = Event.take_baseline s) → i = 1) ∧
    (x = Event.issue_call → i = 2) ∧
    (x = Event.cancel_call → i = 3) ∧
    x ≠ Event.force_close := by
  rcases i with _ | (_ | (_ | (_ | (_ | n)))) <;>
    simp [preTrace] at h <;> subst h <;> simp

/-- Index characterisation of the full trace: baseline at 1, call issuance
at 2, cancellation at 3, force-close at 5; drain snapshots only later. -/
theorem fullTrace_index (env : ProbeEnv) (l : List Snap) (i : Nat) (x : Event)
    (h : (preTrace env ++ Event.force_close :: l.map Event.drain_snapshot)[i]? = some x) :
    ((∃ s, x = Event.take_baseline s) → i = 1) ∧
    (x = Event.issue_call → i = 2) ∧
    (x = Event.cancel_call → i = 3) ∧
    (x = Event.force_close → i = 5) := by
  rcases i with _ | (_ | (_ | (_ | (_ | (_ | n))))) <;>
    simp only [preTrace, List.cons_append, List.nil_append,
      List.getElem?_cons_zero, List.getElem?_cons_succ] at h
  · subst_eqs; simp
  · subst_eqs; simp
  · subst_eqs; simp
  · subst_eqs; simp
  · subst_eqs; simp
  · subst_eqs; simp
  · obtain ⟨s, rfl⟩ := getElem?_map_drain l n x h
    simp

/-- C6: a probe run against a session whose transport is not stdio raises
the unsupported-transport error straight away: the returned trace is
empty, so the child is never located and no snapshot of any kind — no
baseline, no drain sample — is ever taken. -/
theorem timeout_tester_unsupported (env : ProbeEnv) (grace : ℚ)
    (hT : env.transport_name ≠ "stdio") :
    timeout_tester env grace = (.error .unsupported_transport, []) ∧
    (∀ s, Event.take_baseline s ∉ (timeout_tester env grace).2) ∧
    (∀ s, Event.drain_snapshot s ∉ (timeout_tester env grace).2) ∧
    Event.locate_child ∉ (timeout_tester env grace).2 := by
  have h : timeout_tester env grace = (.error .unsupported_transport, []) := by
    unfold timeout_tester
    rw [if_pos hT]
  refine ⟨h, fun s => ?_, fun s => ?_, ?_⟩ <;> simp [h]

/-- Witness for C6: the streaming-HTTP environment trips the guard. -/
theorem timeout_tester_unsupported_witness :
    envHttp.transport_name = "streamable_https" ∧
    timeout_tester envHttp 5 = (.error .unsupported_transport, []) := by
  exact ⟨rfl, (timeout_tester_unsupported envHttp 5 (by decide)).1⟩

/-- C7 counterexample: at a concrete stdio run where `await task` raises a
RuntimeError rather than CancelledError, the probe aborts with that error:
its trace stops at the await — no force-close, no drain snapshot — so a
non-cancellation error does abort the probe, contrary to the claim. -/
theorem cancel_error_aborts_cex :
    timeout_tester envAbort 5 = (.error (.call_error "boom"), preTrace envAbort) ∧
    (timeout_tester envAbort 5).2.count Event.force_close = 0 ∧
    (timeout_tester envAbort 5).2.countP Event.isDrain = 0 := by
  have h : timeout_tester envAbort 5 = (.error (.call_error "boom"), preTrace envAbort) := by
    rfl
  refine ⟨h, ?_, ?_⟩ <;> rw [h] <;> rfl

/-- C7 amended: after the cancellation request, the call resolving by its
own CancelledError (or by plain completion) is treated as expected — the
probe force-closes the session and drains to a verdict; but any other
error surfacing while awaiting the cancelled call aborts the probe: the
error propagates and neither the force-close nor any drain snapshot
happens. -/
theorem cancel_outcome_behavior (env : ProbeEnv) (grace : ℚ) (pr : ProcInfo)
    (hT : env.transport_name = "stdio")
    (hloc : (find_stdio_child env.table env.t_locate env.cmd_stem).1 = .ok pr) :
    ((env.awaitOutcome = .cancelled ∨ env.awaitOutcome = .ok) →
      (∃ r, (timeout_tester env grace).1 = .ok r) ∧
      Event.force_close ∈ (timeout_tester env grace).2) ∧
    (∀ e, env.awaitOutcome = .error e →
      timeout_tester env grace = (.error (.call_error e), preTrace env) ∧
      Event.force_close ∉ (timeout_tester env grace).2 ∧
      ∀ s, Event.drain_snapshot s ∉ (timeout_tester env grace).2) := by
  constructor
  · intro haw
    rw [timeout_tester_eq_drain env grace pr hT hloc haw]
    exact ⟨⟨_, rfl⟩, by simp [preTrace]⟩
  · intro e he
    have h : timeout_tester env grace = (.error (.call_error e), preTrace env) := by
      unfold timeout_tester
      rw [if_neg (by simp [hT]), hloc, he]
    exact ⟨h, by simp [h, preTrace], fun s => by simp [h, preTrace]⟩

/-- Witness for the amended C7, at the concrete cancel-lands and
other-error environments. -/
theorem cancel_outcome_behavior_witness :
    Event.force_close ∈ (timeout_tester envClean 5).2 ∧
    (timeout_tester envAbort 5).1 = .error (.call_error "boom") := by
  refine ⟨((cancel_outcome_behavior envClean 5 procA rfl (by rfl)).1 (Or.inl rfl)).2, ?_⟩
  rw [((cancel_outcome_behavior envAbort 5 procA rfl (by rfl)).2 "boom" rfl).1]

/-- C9: in every probe run whatsoever, any trace position holding the
baseline snapshot strictly precedes any position issuing the monitored
call, and any position requesting cancellation strictly precedes any
position force-closing the session: the baseline is captured before the
call is issued, and the force-close never precedes the cancellation
attempt. -/
theorem probe_event_ordering (env : ProbeEnv) (grace : ℚ) :
    (∀ (i j : Nat) (s : Snap), (timeout_tester env grace).2[i]? = some Event.issue_call →
      (timeout_tester env grace).2[j]? = some (Event.take_baseline s) → j < i) ∧
    (∀ i j : Nat, (timeout_tester env grace).2[i]? = some Event.force_close →
      (timeout_tester env grace).2[j]? = some Event.cancel_call → j < i) := by
  rcases trace_cases env grace with h | h | h | ⟨l, h⟩ <;> rw [h]
  · constructor
    · intro i j s hi _
      simp at hi
    · intro i j hi _
      simp at hi
  · constructor
    · intro i j s hi _
      rcases i with _ | i <;> simp at hi
    · intro i j hi _
      rcases i with _ | i <;> simp at hi
  · constructor
    · intro i j s hi hj
      have h1 := (preTrace_index env i _ hi).2.1 rfl
      have h2 := (preTrace_index env j _ hj).1 ⟨s, rfl⟩
      omega
    · intro i j hi _
      exact absurd rfl (preTrace_index env i _ hi).2.2.2
  · constructor
    · intro i j s hi hj
      have h1 := (fullTrace_index env l i _ hi).2.1 rfl
      have h2 := (fullTrace_index env l j _ hj).1 ⟨s, rfl⟩
      omega
    · intro i j hi hj
      have h1 := (fullTrace_index env l i _ hi).2.2.2 rfl
      have h2 := (fullTrace_index env l j _ hj).2.2.1 rfl
      omega

/-- Witness for C9: at the concrete clean environment, the baseline sits
at trace position 1, call issuance at 2, cancellation at 3 and force-close
at 5, and the claimed orderings follow by applying the theorem. -/
theorem probe_event_ordering_witness :
    (timeout_tester envClean 5).2[1]? = some (Event.take_baseline snapBase) ∧
    (timeout_tester envClean 5).2[2]? = some Event.issue_call ∧
    (timeout_tester envClean 5).2[3]? = some Event.cancel_call ∧
    (timeout_tester envClean 5).2[5]? = some Event.force_close ∧
    (1 : Nat) < 2 ∧ (3 : Nat) < 5 := by
  have htr := timeout_tester_eq_drain envClean 5 procA rfl (by rfl) (Or.inl rfl)
  have h1 : (timeout_tester envClean 5).2[1]? = some (Event.take_baseline snapBase) := by
    rw [htr]; simp [preTrace]; rfl
  have h2 : (timeout_tester envClean 5).2[2]? = some Event.issue_call := by
    rw [htr]; simp [preTrace]
  have h3 : (timeout_tester envClean 5).2[3]? = some Event.cancel_call := by
    rw [htr]; simp [preTrace]
  have h5 : (timeout_tester envClean 5).2[5]? = some Event.force_close := by
    rw [htr]; simp [preTrace]
  exact ⟨h1, h2, h3, h5, (probe_event_ordering envClean 5).1 2 1 snapBase h2 h1,
    (probe_event_ordering envClean 5).2 5 3 h5 h3⟩

/-- Witness for C1 at the concrete clean environment: the second drain
sample (Scenario A of the spec) decays, so the probe reports `clean` with
that sample as `final`. -/
theorem timeout_tester_clean_first_witness :
    decayed envClean.baseline snapGood = true ∧
    (timeout_tester envClean 5).1 = .ok ⟨.clean, snapBase, some snapGood⟩ := by
  have hdec : decayed envClean.baseline snapGood = true := by
    norm_num [decayed, ok_cpu, ok_thr, ok_kids, ok_rss, envClean, snapBase, snapGood,
      Snap.cpu, Snap.thr, Snap.kids, Snap.rss]
  have hfind : envClean.obs.find? (inWindowDecayed envClean.baseline (envClean.startTime + 5)) =
      some ((3 : ℚ), snapGood) := by
    norm_num [envClean, List.find?, inWindowDecayed, decayed, ok_cpu, ok_thr, ok_kids, ok_rss,
      snapBase, snapGood, snapBad, Snap.cpu, Snap.thr, Snap.kids, Snap.rss]
  obtain ⟨q, hq, _, _, heq⟩ :=
    timeout_tester_clean_first envClean 5 procA rfl (by rfl) (Or.inl rfl) (by decide)
      ⟨((3 : ℚ), snapGood), by decide, by norm_num [envClean], hdec⟩
  rw [hq] at hfind
  obtain rfl : q = ((3 : ℚ), snapGood) := Option.some.inj hfind
  refine ⟨hdec, ?_⟩
  rw [heq]
  rfl

/-- Witness for C2 at the concrete leaking environment: no drain sample
decays, so the probe reports `suspect_leak` with the last in-window sample
as `final`. -/
theorem timeout_tester_suspect_leak_witness :
    decayed envLeak.baseline snapBad = false ∧
    (timeout_tester envLeak 5).1 = .ok ⟨.suspect_leak, snapBase, some snapBad⟩ := by
  have hbad : decayed envLeak.baseline snapBad = false := by
    norm_num [decayed, ok_cpu, envLeak, envClean, snapBad, Snap.cpu]
  have hnone : ∀ p ∈ envLeak.obs,
      p.1 < envLeak.startTime + 5 → decayed envLeak.baseline p.2 = false := by
    intro p hp _
    have hmem : p = ((2 : ℚ), snapBad) ∨ p = ((7 : ℚ), snapBad) := by
      simpa [envLeak, envClean] using hp
    rcases hmem with rfl | rfl <;>
      norm_num [decayed, ok_cpu, envLeak, envClean, snapBad, Snap.cpu]
  obtain ⟨te, _, _, heq⟩ :=
    timeout_tester_suspect_leak envLeak 5 procA rfl (by rfl) (Or.inl rfl) (by decide) hnone
      ⟨((7 : ℚ), snapBad), by decide, by norm_num [envLeak, envClean]⟩
  refine ⟨hbad, ?_⟩
  rw [heq]
  norm_num [envLeak, envClean, List.takeWhile]

/-- Witness for C10: running the clean environment with `grace = 0` skips
the drain loop entirely and reports `suspect_leak` with no final
snapshot. -/
theorem timeout_tester_nonpositive_grace_witness :
    (0 : ℚ) ≤ 0 ∧
    (timeout_tester envClean 0).1 = .ok ⟨.suspect_leak, snapBase, none⟩ := by
  have hobs : ∀ p ∈ envClean.obs, envClean.startTime ≤ p.1 := by
    intro p hp
    have hmem : p = ((2 : ℚ), snapBad) ∨ p = ((3 : ℚ), snapGood) ∨ p = ((7 : ℚ), snapGood) := by
      simpa [envClean] using hp
    rcases hmem with rfl | rfl | rfl <;> decide
  have h := timeout_tester_nonpositive_grace envClean 0 procA rfl (by rfl) (Or.inl rfl)
    (by norm_num) hobs
  refine ⟨by norm_num, ?_⟩
  rw [h.1]
  rfl

/-- `find?` returns the first element satisfying the predicate in an
explicit decomposition. -/
theorem find?_first {α : Type} (f : α → Bool) :
    ∀ (l1 : List α) (p : α) (l2 : List α), (∀ q ∈ l1, f q = false) → f p = true →
      (l1 ++ p :: l2).find? f = some p
  | [], p, l2, _, hp => by
    simp only [List.nil_append]
    exact List.find?_cons_of_pos _ hp
  | a :: l1, p, l2, hall, hp => by
    rw [List.cons_append,
      List.find?_cons_of_neg _ (by simp [hall a (List.mem_cons_self _ _)])]
    exact find?_first f l1 p l2 (fun q hq => hall q (List.mem_cons_of_mem _ hq)) hp

/-- C8 counterexample: a child that only becomes visible in the process
table 0.2 s after spawn is never found — the locator pauses a fixed 0.1 s
once and scans exactly once (its scan-time list has length one), raising
ProcessNotFound although a running, matching child appears well inside any
multi-second bound; so the locator does not perform repeated checks with
an interval and a deadline. -/
theorem find_stdio_child_single_scan_cex :
    find_stdio_child tableLate 0 "srv" = (.error .process_not_found, [(1 : ℚ) / 10]) ∧
    (find_stdio_child tableLate 0 "srv").2.length = 1 ∧
    tableLate (2 / 10) = [procA] ∧
    procA.is_running = true ∧ matchesStem "srv" procA = true := by
  have h : find_stdio_child tableLate 0 "srv" = (.error .process_not_found, [(1 : ℚ) / 10]) := by
    norm_num [find_stdio_child, tableLate]
  refine ⟨h, by rw [h]; rfl, by norm_num [tableLate], by rfl, by rfl⟩

/-- C8 amended: the locator tolerates late visibility only through a
single fixed 0.1 s pause followed by exactly one scan of the process table
(one check: the scan-time list is a singleton — no interval retries, no
deadline loop); it fails with ProcessNotFound precisely when no running
candidate matches the stem at that single instant; and when more than one
candidate matches, it returns the first match. -/
theorem find_stdio_child_single_scan (table : ℚ → List ProcInfo) (t0 : ℚ) (cmd_stem : String) :
    (find_stdio_child table t0 cmd_stem).2 = [t0 + 1 / 10] ∧
    ((find_stdio_child table t0 cmd_stem).1 = .error .process_not_found ↔
      ∀ p ∈ (table (t0 + 1 / 10)).filter (fun p => p.is_running),
        matchesStem cmd_stem p = false) ∧
    (∀ l1 p l2, (table (t0 + 1 / 10)).filter (fun p => p.is_running) = l1 ++ p :: l2 →
      (∀ q ∈ l1, matchesStem cmd_stem q = false) → matchesStem cmd_stem p = true →
      (find_stdio_child table t0 cmd_stem).1 = .ok p) := by
  refine ⟨?_, ⟨?_, ?_⟩, ?_⟩
  · simp only [find_stdio_child]
    cases hf : ((table (t0 + 1 / 10)).filter (fun p => p.is_running)).find?
        (matchesStem cmd_stem) <;> rfl
  · intro h p hp
    simp only [find_stdio_child] at h
    cases hf : ((table (t0 + 1 / 10)).filter (fun p => p.is_running)).find?
        (matchesStem cmd_stem) with
    | some q => rw [hf] at h; simp at h
    | none => simpa using List.find?_eq_none.mp hf p hp
  · intro hall
    have hf : ((table (t0 + 1 / 10)).filter (fun p => p.is_running)).find?
        (matchesStem cmd_stem) = none :=
      List.find?_eq_none.mpr (fun p hp => by simp [hall p hp])
    simp only [find_stdio_child]
    rw [hf]
  · intro l1 p l2 hsplit hl1 hp
    have hf : ((table (t0 + 1 / 10)).filter (fun p => p.is_running)).find?
        (matchesStem cmd_stem) = some p := by
      rw [hsplit]
      exact find?_first _ l1 p l2 hl1 hp
    simp only [find_stdio_child]
    rw [hf]

/-- Witness for the amended C8: with two matching running candidates, the
locator scans once and returns the first. -/
theorem find_stdio_child_single_scan_witness :
    (find_stdio_child tableTwo 0 "srv").2 = [(0 : ℚ) + 1 / 10] ∧
    (find_stdio_child tableTwo 0 "srv").1 = .ok procA := by
  refine ⟨(find_stdio_child_single_scan tableTwo 0 "srv").1, ?_⟩
  exact (find_stdio_child_single_scan tableTwo 0 "srv").2.2 [] procA [procB]
    (by rfl) (by simp) (by rfl)

/-- C3: `connect_server_stdio` evaluated at a run whose handshake times
out. The spec promises that the timeout path releases every
partially-acquired resource and leaves no half-open resource; the code
instead calls `exit_stack.aclose()` without `await` (generic_client.py
line 94), so afterwards the stored exit stack still holds the entered
`stdio_client` and `ClientSession` contexts, unclosed, and its entry is
still present in `exit_stacks` while the session entry is gone. -/
theorem connect_stdio_timeout_leaves_stack_open :
    connect_server_stdio ⟨[], [], []⟩ "1" true =
      ({ server_params := [], sessions := [],
         exit_stacks := [("1", ⟨["stdio_client", "ClientSession"], false⟩)] }, none) ∧
    dictGet (connect_server_stdio ⟨[], [], []⟩ "1" true).1.exit_stacks "1" =
      some ⟨["stdio_client", "ClientSession"], false⟩ := by
  exact ⟨by rfl, by rfl⟩

/-- C4 counterexample: re-registering an already-registered id does not
fail with any error — `add_server` has no duplicate check — and the stored
configuration is silently replaced by the new one. -/
theorem add_server_duplicate_cex :
    add_server [("1", cfgA)] "1" cfgB = .ok [("1", cfgB)] ∧
    dictGet [("1", cfgB)] "1" = some cfgB ∧
    (cfgA == cfgB) = false := by
  exact ⟨by rfl, by rfl, by rfl⟩

/-- Updating a key and then looking it up yields the new value. -/
theorem dictGet_dictSet {α : Type} (m : List (String × α)) (k : String) (v : α) :
    dictGet (dictSet m k v) k = some v := by
  induction m with
  | nil => simp [dictSet, dictGet, List.find?]
  | cons p rest ih =>
    obtain ⟨k0, v0⟩ := p
    by_cases h : k0 = k
    · simp [dictSet, h, dictGet, List.find?]
    · rw [show dictSet ((k0, v0) :: rest) k v = (k0, v0) :: dictSet rest k v by
        simp [dictSet, h]]
      unfold dictGet
      rw [List.find?_cons_of_neg _ (by simp [h])]
      exact ih

/-- C4 amended: calling `add_server` again with an already-registered id
succeeds — no error is possible — and silently replaces the stored
configuration: afterwards the id maps to the new value, no longer to the
old one. -/
theorem add_server_replaces (m : List (String × ServerConfig)) (server_id : String)
    (cfgOld cfgNew : ServerConfig)
    (hold : dictGet m server_id = some cfgOld) (hne : cfgOld ≠ cfgNew) :
    ∃ m2, add_server m server_id cfgNew = .ok m2 ∧
      dictGet m2 server_id = some cfgNew ∧ dictGet m2 server_id ≠ some cfgOld := by
  refine ⟨dictSet m server_id cfgNew, rfl, dictGet_dictSet m server_id cfgNew, ?_⟩
  rw [dictGet_dictSet m server_id cfgNew]
  intro hcontra
  exact hne (Option.some.inj hcontra).symm

/-- Witness for the amended C4 at a concrete one-entry registry. -/
theorem add_server_replaces_witness :
    dictGet [("1", cfgA)] "1" = some cfgA ∧
    add_server [("1", cfgA)] "1" cfgB = .ok [("1", cfgB)] ∧
    dictGet [("1", cfgB)] "1" = some cfgB := by
  obtain ⟨m2, h1, h2, _⟩ :=
    add_server_replaces [("1", cfgA)] "1" cfgA cfgB (by rfl) (by decide)
  have h1s : (Except.ok [("1", cfgB)] : Except ClientError (List (String × ServerConfig))) =
      Except.ok m2 := by
    rw [← h1]
    rfl
  obtain rfl : m2 = [("1", cfgB)] := (Except.ok.inj h1s).symm
  exact ⟨by rfl, h1, h2⟩

/-- The cleanup loop reports exactly the stack keys, in order, regardless
of which closes fail. -/
theorem cleanupLoop_sids (fails : String → Bool) :
    ∀ l : List (String × ExitStack),
      (cleanupLoop fails l).map CleanupEv.sid = l.map Prod.fst := by
  intro l
  induction l with
  | nil => rfl
  | cons p rest ih =>
    obtain ⟨sid, stk⟩ := p
    by_cases h : fails sid <;> simp [cleanupLoop, h, CleanupEv.sid, ih]

/-- C5: `cleanup` attempts to close every exit stack present at call time
exactly once, in iteration order, no matter which individual closes raise
(a failure never stops the loop), and afterwards both the session map and
the exit-stack map are empty; under the reachable-state facts that every
session id has an exit stack and stack keys are unique, every session
reachable at call time is attempted exactly once. -/
theorem cleanup_closes_all (st : ClientState) (fails : String → Bool)
    (hsub : ∀ sid ∈ st.sessions.map Prod.fst, sid ∈ st.exit_stacks.map Prod.fst)
    (hnodup : (st.exit_stacks.map Prod.fst).Nodup) :
    (cleanup st fails).1.sessions = [] ∧
    (cleanup st fails).1.exit_stacks = [] ∧
    (cleanup st fails).2.map CleanupEv.sid = st.exit_stacks.map Prod.fst ∧
    ∀ sid ∈ st.sessions.map Prod.fst,
      ((cleanup st fails).2.map CleanupEv.sid).count sid = 1 := by
  refine ⟨rfl, rfl, cleanupLoop_sids fails st.exit_stacks, ?_⟩
  intro sid hsid
  show ((cleanupLoop fails st.exit_stacks).map CleanupEv.sid).count sid = 1
  rw [cleanupLoop_sids fails st.exit_stacks]
  exact List.count_eq_one_of_mem hnodup (hsub sid hsid)

/-- Witness for C5: with two sessions and the close of "1" raising, both
stacks are still attempted, in order, and both maps end empty. -/
theorem cleanup_closes_all_witness :
    failsOn1 "1" = true ∧
    (cleanup stFail failsOn1).1.sessions = [] ∧
    (cleanup stFail failsOn1).1.exit_stacks = [] ∧
    (cleanup stFail failsOn1).2.map CleanupEv.sid = ["1", "2"] := by
  have h := cleanup_closes_all stFail failsOn1 (by decide) (by decide)
  refine ⟨by rfl, h.1, h.2.1, ?_⟩
  rw [h.2.2.1]
  rfl

end MCPTester
